import Mathlib

/-!
# Verification of the Catmull-Clark topology core (cuda-rewrite)

Shallow embedding of src/cuda-rewrite/Mesh.cpp and src/cuda-rewrite/Utilities.h.

Conventions of the embedding:
* C int32_t values are embedded as Int, with each C operation mapped to the
  exact integer operation it computes when no 32-bit overflow occurs
  (left shift by k = multiplication by 2 ^ k; the mask expression
  of the form bitwise-not of 0xFFFFFFFF shifted left by d = 2 ^ d - 1;
  arithmetic right shift by k = floor division by 2 ^ k, which is Int
  division here since Lean's Int division is Euclidean and the divisors
  are positive powers of two; x bitand 1 = x % 2; x bitand 3 = x % 4).
  Signed-overflow cases are undefined behaviour in the C source, so the
  exact-integer reading is the only defined semantics of these functions.
* The one deliberately wrapping quantity, the uint32_t path word
  (named heap) of ccs_EdgeToHalfedgeID, is embedded as a Nat reduced
  modulo 2 ^ 32 at each update, exactly as unsigned C arithmetic does.
* Subdivision depths are embedded as Nat (every call site uses a
  non-negative depth, enforced by assert(depth >= 0) in the source).
* Array reads are embedded as List.getD with the structure's default
  element; an out-of-range read is undefined behaviour in the source.
* float sharpness values are embedded as rationals; the source only ever
  compares them with and returns the literal 0.
-/

/-- Halfedge record of the control mesh (struct cc_Halfedge). -/
structure cc_Halfedge where
  twinID : Int
  nextID : Int
  prevID : Int
  faceID : Int
  edgeID : Int
  vertexID : Int
  uvID : Int
deriving DecidableEq, Repr, Inhabited

/-- Crease record (struct cc_Crease): sharpness with next and prev links. -/
structure cc_Crease where
  sharpness : ℚ
  nextID : Int
  prevID : Int
deriving DecidableEq, Repr, Inhabited

/-- Vertex point (struct cc_VertexPoint), three coordinates. -/
structure cc_VertexPoint where
  x : ℚ
  y : ℚ
  z : ℚ
deriving DecidableEq, Repr, Inhabited

/-- Uv record (cc_VertexUv), two coordinates. -/
structure cc_VertexUv where
  u : ℚ
  v : ℚ
deriving DecidableEq, Repr, Inhabited

/-- Control mesh (struct cc_Mesh): element counts and flat arrays. -/
structure cc_Mesh where
  vertexCount : Int
  uvCount : Int
  halfedgeCount : Int
  edgeCount : Int
  faceCount : Int
  vertexToHalfedgeIDs : List Int
  edgeToHalfedgeIDs : List Int
  faceToHalfedgeIDs : List Int
  halfedges : List cc_Halfedge
  creases : List cc_Crease
  vertexPoints : List cc_VertexPoint
  uvs : List cc_VertexUv
deriving DecidableEq, Repr

/-- Semi-regular halfedge stored per subd level (struct cc_Halfedge_SemiRegular):
only twinID, edgeID, vertexID plus the packed uv word are stored. -/
structure cc_Halfedge_SemiRegular where
  twinID : Int
  edgeID : Int
  vertexID : Int
  uvID : Int
deriving DecidableEq, Repr, Inhabited

/-- Subdivision hierarchy (struct cc_Subd): flat per-kind arrays covering
levels 1..maxDepth, a maximum depth and the (borrowed) cage. -/
structure cc_Subd where
  cage : cc_Mesh
  halfedges : List cc_Halfedge_SemiRegular
  creases : List cc_Crease
  vertexPoints : List cc_VertexPoint
  maxDepth : Nat
deriving DecidableEq, Repr

/-! ## Control-mesh count accessors (Mesh.cpp lines 8-61) -/

def ccm_FaceCount (mesh : cc_Mesh) : Int := mesh.faceCount

def ccm_EdgeCount (mesh : cc_Mesh) : Int := mesh.edgeCount

def ccm_CreaseCount (mesh : cc_Mesh) : Int := ccm_EdgeCount mesh

def ccm_HalfedgeCount (mesh : cc_Mesh) : Int := mesh.halfedgeCount

def ccm_VertexCount (mesh : cc_Mesh) : Int := mesh.vertexCount

def ccm_UvCount (mesh : cc_Mesh) : Int := mesh.uvCount

/-! ## Per-level counting formulas (Mesh.cpp lines 64-194) -/

/-- ccm_FaceCountAtDepth_Fast: H0 shifted left by (depth - 1) * 2. -/
def ccm_FaceCountAtDepth_Fast (cage : cc_Mesh) (depth : Nat) : Int :=
  ccm_HalfedgeCount cage * 2 ^ ((depth - 1) * 2)

def ccm_FaceCountAtDepth (cage : cc_Mesh) (depth : Nat) : Int :=
  if depth = 0 then ccm_FaceCount cage else ccm_FaceCountAtDepth_Fast cage depth

/-- ccm_EdgeCountAtDepth_Fast: (2 E0 + (2 ^ depth - 1) H0) shifted left by depth - 1. -/
def ccm_EdgeCountAtDepth_Fast (cage : cc_Mesh) (depth : Nat) : Int :=
  (ccm_EdgeCount cage * 2 + ((2 : Int) ^ depth - 1) * ccm_HalfedgeCount cage)
    * 2 ^ (depth - 1)

def ccm_EdgeCountAtDepth (cage : cc_Mesh) (depth : Nat) : Int :=
  if depth = 0 then ccm_EdgeCount cage else ccm_EdgeCountAtDepth_Fast cage depth

/-- ccm_HalfedgeCountAtDepth: H0 shifted left by depth * 2. -/
def ccm_HalfedgeCountAtDepth (cage : cc_Mesh) (depth : Nat) : Int :=
  ccm_HalfedgeCount cage * 2 ^ (depth * 2)

/-- ccm_CreaseCountAtDepth: C0 shifted left by depth. -/
def ccm_CreaseCountAtDepth (cage : cc_Mesh) (depth : Nat) : Int :=
  ccm_CreaseCount cage * 2 ^ depth

/-- ccm_VertexCountAtDepth_Fast: the first step computed by hand, then the
closed form V1 + tmp * (E1 + tmp * F1) with tmp = 2 ^ (depth - 1) - 1. -/
def ccm_VertexCountAtDepth_Fast (cage : cc_Mesh) (depth : Nat) : Int :=
  let V0 := ccm_VertexCount cage
  let F0 := ccm_FaceCount cage
  let E0 := ccm_EdgeCount cage
  let H0 := ccm_HalfedgeCount cage
  let F1 := H0
  let E1 := 2 * E0 + H0
  let V1 := V0 + E0 + F0
  let tmp := (2 : Int) ^ (depth - 1) - 1
  V1 + tmp * (E1 + tmp * F1)

def ccm_VertexCountAtDepth (cage : cc_Mesh) (depth : Nat) : Int :=
  if depth = 0 then ccm_VertexCount cage else ccm_VertexCountAtDepth_Fast cage depth

/-! ## One-step subdivision counting rules (spec section 4.2)

The reference iteration the per-level closed forms are checked against:
one step maps (F, E, H, C, V) to (H, 2E + H, 4H, 2C, V + E + F). -/

/-- The five element counts of one subdivision level. -/
structure MeshCounts where
  F : Int
  E : Int
  H : Int
  C : Int
  V : Int
deriving DecidableEq, Repr

/-- One quad-split subdivision step on the counts. -/
def ccStep (c : MeshCounts) : MeshCounts :=
  { F := c.H, E := 2 * c.E + c.H, H := 4 * c.H, C := 2 * c.C, V := c.V + c.E + c.F }

/-- The cage's base counts; the crease count of a cage is its edge count. -/
def ccBaseCounts (cage : cc_Mesh) : MeshCounts :=
  { F := ccm_FaceCount cage, E := ccm_EdgeCount cage, H := ccm_HalfedgeCount cage,
    C := ccm_CreaseCount cage, V := ccm_VertexCount cage }

/-- Counts after d one-step subdivisions of the cage's base counts. -/
def ccCountsAtDepth (cage : cc_Mesh) (d : Nat) : MeshCounts :=
  ccStep^[d] (ccBaseCounts cage)

/-! ## Closed forms of the iterated one-step rules -/

lemma ccIter_H (c : MeshCounts) (d : Nat) : (ccStep^[d] c).H = c.H * 4 ^ d := by
  induction d with
  | zero => simp
  | succ n ih => rw [Function.iterate_succ_apply', ccStep]; simp [ih]; ring

lemma ccIter_C (c : MeshCounts) (d : Nat) : (ccStep^[d] c).C = c.C * 2 ^ d := by
  induction d with
  | zero => simp
  | succ n ih => rw [Function.iterate_succ_apply', ccStep]; simp [ih]; ring

lemma ccIter_F (c : MeshCounts) (d : Nat) : (ccStep^[d + 1] c).F = c.H * 4 ^ d := by
  rw [Function.iterate_succ_apply', ccStep]
  simp [ccIter_H]

lemma two_pow_twice (n : Nat) : (2 : Int) ^ (n * 2) = 2 ^ n * 2 ^ n := by
  rw [← pow_add]
  congr 1
  omega

lemma four_pow_eq (n : Nat) : (4 : Int) ^ n = 2 ^ n * 2 ^ n := by
  rw [show (4 : Int) = 2 * 2 by norm_num, mul_pow]

lemma ccIter_E (c : MeshCounts) (d : Nat) :
    (ccStep^[d + 1] c).E = (2 * c.E + ((2 : Int) ^ (d + 1) - 1) * c.H) * 2 ^ d := by
  induction d with
  | zero => rw [Function.iterate_succ_apply', ccStep]; simp
  | succ n ih =>
      rw [Function.iterate_succ_apply', ccStep]
      simp only [ih, ccIter_H, four_pow_eq, pow_succ]
      ring

lemma ccIter_V (c : MeshCounts) (d : Nat) :
    (ccStep^[d + 1] c).V =
      (c.V + c.E + c.F) +
        ((2 : Int) ^ d - 1) * ((2 * c.E + c.H) + ((2 : Int) ^ d - 1) * c.H) := by
  induction d with
  | zero => rw [Function.iterate_succ_apply', ccStep]; simp
  | succ n ih =>
      rw [Function.iterate_succ_apply', ccStep]
      simp only [ih, ccIter_E, ccIter_F, four_pow_eq, pow_succ]
      ring

/-- C1. For every cage and every depth d, the closed-form per-level counting
functions of Mesh.cpp return exactly the values obtained by applying the
one-step rules F' = H, E' = 2E + H, H' = 4H, C' = 2C, V' = V + E + F
d times to the cage's base counts. -/
theorem countAtDepth_eq_iterated_step_rules (cage : cc_Mesh) (d : Nat) :
    ccm_FaceCountAtDepth cage d = (ccCountsAtDepth cage d).F ∧
    ccm_EdgeCountAtDepth cage d = (ccCountsAtDepth cage d).E ∧
    ccm_HalfedgeCountAtDepth cage d = (ccCountsAtDepth cage d).H ∧
    ccm_CreaseCountAtDepth cage d = (ccCountsAtDepth cage d).C ∧
    ccm_VertexCountAtDepth cage d = (ccCountsAtDepth cage d).V := by
  unfold ccCountsAtDepth
  refine ⟨?_, ?_, ?_, ?_, ?_⟩
  · cases d with
    | zero => simp [ccm_FaceCountAtDepth, ccBaseCounts]
    | succ n =>
        rw [ccIter_F]
        simp only [ccm_FaceCountAtDepth, ccm_FaceCountAtDepth_Fast, ccBaseCounts,
          Nat.succ_ne_zero, if_false, Nat.succ_sub_one, two_pow_twice, four_pow_eq]
  · cases d with
    | zero => simp [ccm_EdgeCountAtDepth, ccBaseCounts]
    | succ n =>
        rw [ccIter_E]
        simp only [ccm_EdgeCountAtDepth, ccm_EdgeCountAtDepth_Fast, ccBaseCounts,
          Nat.succ_ne_zero, if_false, Nat.succ_sub_one]
        ring
  · rw [ccIter_H]
    simp only [ccm_HalfedgeCountAtDepth, ccBaseCounts, two_pow_twice, four_pow_eq]
  · rw [ccIter_C]
    simp [ccm_CreaseCountAtDepth, ccBaseCounts]
  · cases d with
    | zero => simp [ccm_VertexCountAtDepth, ccBaseCounts]
    | succ n =>
        rw [ccIter_V]
        simp only [ccm_VertexCountAtDepth, ccm_VertexCountAtDepth_Fast, ccBaseCounts,
          Nat.succ_ne_zero, if_false, Nat.succ_sub_one]

/-! ## Cumulative counting formulas (Mesh.cpp lines 406-528) -/

/-- ccs_CumulativeHalfedgeCountAtDepth: H1 * (4 ^ D - 1) / 3 with H1 = 4 H0. -/
def ccs_CumulativeHalfedgeCountAtDepth (cage : cc_Mesh) (maxDepth : Nat) : Int :=
  let H0 := ccm_HalfedgeCount cage
  let H1 := H0 * 4
  let tmp := (2 : Int) ^ (maxDepth * 2) - 1
  H1 * tmp / 3

/-- ccs_CumulativeFaceCountAtDepth: the cumulative halfedge count shifted
right by 2 (arithmetic shift, here division by 4). -/
def ccs_CumulativeFaceCountAtDepth (cage : cc_Mesh) (depth : Nat) : Int :=
  ccs_CumulativeHalfedgeCountAtDepth cage depth / 4

/-- ccs_CumulativeEdgeCountAtDepth: A * (6 E1 + A H1 - H1) / 6 with
A = 2 ^ depth - 1, E1 = 2 E0 + H0 and H1 = 4 H0. -/
def ccs_CumulativeEdgeCountAtDepth (cage : cc_Mesh) (depth : Nat) : Int :=
  let H0 := ccm_HalfedgeCount cage
  let E0 := ccm_EdgeCount cage
  let H1 := H0 * 4
  let E1 := E0 * 2 + H0
  let A := (2 : Int) ^ depth - 1
  A * (6 * E1 + A * H1 - H1) / 6

/-- ccs_CumulativeCreaseCountAtDepth: C1 * (2 ^ D - 1) with C1 = 2 C0. -/
def ccs_CumulativeCreaseCountAtDepth (cage : cc_Mesh) (maxDepth : Nat) : Int :=
  let C0 := ccm_CreaseCount cage
  let C1 := C0 * 2
  let tmp := (2 : Int) ^ maxDepth - 1
  C1 * tmp

/-- ccs_CumulativeVertexCountAtDepth:
A * (E1 - 2 F1) + B * F1 + D * (F1 - E1 + V1) with A = 2 ^ D - 1 and
B = (4 ^ D - 1) / 3. -/
def ccs_CumulativeVertexCountAtDepth (cage : cc_Mesh) (depth : Nat) : Int :=
  let V0 := ccm_VertexCount cage
  let F0 := ccm_FaceCount cage
  let E0 := ccm_EdgeCount cage
  let H0 := ccm_HalfedgeCount cage
  let F1 := H0
  let E1 := 2 * E0 + H0
  let V1 := V0 + E0 + F0
  let A := (2 : Int) ^ depth - 1
  let B := ((2 : Int) ^ (depth * 2) - 1) / 3
  A * (E1 - F1 * 2) + B * F1 + (depth : Int) * (F1 - E1 + V1)

/-! ## Geometric-series forms of the cumulative formulas -/

lemma geo2_sum (d : Nat) : ∑ k ∈ Finset.range d, (2 : Int) ^ k = 2 ^ d - 1 := by
  induction d with
  | zero => simp
  | succ n ih => rw [Finset.sum_range_succ, ih]; ring

lemma geo4_three (d : Nat) :
    (4 : Int) ^ d - 1 = 3 * ∑ k ∈ Finset.range d, (4 : Int) ^ k := by
  induction d with
  | zero => simp
  | succ n ih =>
      rw [Finset.sum_range_succ, pow_succ]
      nlinarith [ih]

lemma two_pow_double (d : Nat) : (2 : Int) ^ (d * 2) = 4 ^ d := by
  rw [two_pow_twice, four_pow_eq]

lemma cumulativeHalfedge_eq_geo (cage : cc_Mesh) (d : Nat) :
    ccs_CumulativeHalfedgeCountAtDepth cage d =
      4 * ccm_HalfedgeCount cage * ∑ k ∈ Finset.range d, (4 : Int) ^ k := by
  simp only [ccs_CumulativeHalfedgeCountAtDepth]
  rw [two_pow_double, geo4_three]
  rw [show ccm_HalfedgeCount cage * 4 * (3 * ∑ k ∈ Finset.range d, (4 : Int) ^ k) =
      3 * (4 * ccm_HalfedgeCount cage * ∑ k ∈ Finset.range d, (4 : Int) ^ k) by ring]
  exact Int.mul_ediv_cancel_left _ (by norm_num)

/-- The per-level halfedge counts of levels 1..d, summed. -/
lemma sum_halfedge_levels (cage : cc_Mesh) (d : Nat) :
    ∑ k ∈ Finset.range d, ccm_HalfedgeCountAtDepth cage (k + 1) =
      4 * ccm_HalfedgeCount cage * ∑ k ∈ Finset.range d, (4 : Int) ^ k := by
  rw [Finset.mul_sum]
  refine Finset.sum_congr rfl fun k _ => ?_
  unfold ccm_HalfedgeCountAtDepth
  rw [show (k + 1) * 2 = k * 2 + 2 by ring, pow_add, two_pow_double]
  ring

/-- The per-level face counts of levels 1..d, summed. -/
lemma sum_face_levels (cage : cc_Mesh) (d : Nat) :
    ∑ k ∈ Finset.range d, ccm_FaceCountAtDepth cage (k + 1) =
      ccm_HalfedgeCount cage * ∑ k ∈ Finset.range d, (4 : Int) ^ k := by
  rw [Finset.mul_sum]
  refine Finset.sum_congr rfl fun k _ => ?_
  simp only [ccm_FaceCountAtDepth, Nat.succ_ne_zero, if_false, ccm_FaceCountAtDepth_Fast,
    Nat.succ_sub_one, two_pow_double]

/-- The per-level crease counts of levels 1..d, summed. -/
lemma sum_crease_levels (cage : cc_Mesh) (d : Nat) :
    ∑ k ∈ Finset.range d, ccm_CreaseCountAtDepth cage (k + 1) =
      ccs_CumulativeCreaseCountAtDepth cage d := by
  unfold ccs_CumulativeCreaseCountAtDepth
  rw [← geo2_sum, Finset.mul_sum]
  refine Finset.sum_congr rfl fun k _ => ?_
  unfold ccm_CreaseCountAtDepth
  rw [pow_succ]
  ring

/-- Six times the sum of the per-level edge counts of levels 1..d equals the
numerator of the cumulative edge formula. -/
lemma sum_edge_levels_six (cage : cc_Mesh) (d : Nat) :
    ((2 : Int) ^ d - 1) *
        (6 * (ccm_EdgeCount cage * 2 + ccm_HalfedgeCount cage) +
          ((2 : Int) ^ d - 1) * (ccm_HalfedgeCount cage * 4) -
          ccm_HalfedgeCount cage * 4) =
      6 * ∑ k ∈ Finset.range d, ccm_EdgeCountAtDepth cage (k + 1) := by
  induction d with
  | zero => simp
  | succ n ih =>
      rw [Finset.sum_range_succ]
      simp only [ccm_EdgeCountAtDepth, Nat.succ_ne_zero, if_false,
        ccm_EdgeCountAtDepth_Fast, Nat.succ_sub_one] at *
      rw [pow_succ] at *
      linear_combination ih

lemma cumulativeEdge_eq_sum (cage : cc_Mesh) (d : Nat) :
    ccs_CumulativeEdgeCountAtDepth cage d =
      ∑ k ∈ Finset.range d, ccm_EdgeCountAtDepth cage (k + 1) := by
  simp only [ccs_CumulativeEdgeCountAtDepth]
  rw [sum_edge_levels_six]
  exact Int.mul_ediv_cancel_left _ (by norm_num)

/-- The sum of the per-level vertex counts of levels 1..d, in the shape of the
cumulative vertex formula with the division replaced by the geometric sum. -/
lemma sum_vertex_levels (cage : cc_Mesh) (d : Nat) :
    ((2 : Int) ^ d - 1) *
          ((2 * ccm_EdgeCount cage + ccm_HalfedgeCount cage) -
            ccm_HalfedgeCount cage * 2) +
        (∑ k ∈ Finset.range d, (4 : Int) ^ k) * ccm_HalfedgeCount cage +
        (d : Int) *
          (ccm_HalfedgeCount cage - (2 * ccm_EdgeCount cage + ccm_HalfedgeCount cage) +
            (ccm_VertexCount cage + ccm_EdgeCount cage + ccm_FaceCount cage)) =
      ∑ k ∈ Finset.range d, ccm_VertexCountAtDepth cage (k + 1) := by
  induction d with
  | zero => simp
  | succ n ih =>
      rw [Finset.sum_range_succ, Finset.sum_range_succ, ← ih]
      simp only [ccm_VertexCountAtDepth, Nat.succ_ne_zero, if_false,
        ccm_VertexCountAtDepth_Fast, Nat.succ_sub_one]
      rw [four_pow_eq, pow_succ]
      push_cast
      ring

lemma cumulativeVertex_eq_sum (cage : cc_Mesh) (d : Nat) :
    ccs_CumulativeVertexCountAtDepth cage d =
      ∑ k ∈ Finset.range d, ccm_VertexCountAtDepth cage (k + 1) := by
  simp only [ccs_CumulativeVertexCountAtDepth]
  rw [two_pow_double, geo4_three, Int.mul_ediv_cancel_left _ (by norm_num : (3 : Int) ≠ 0),
    ← sum_vertex_levels]

/-! ## Subd construction (Mesh.cpp lines 531-562) -/

def ccs_MaxDepth (subd : cc_Subd) : Nat := subd.maxDepth

/-- ccs_Create: computes the cumulative halfedge, crease and vertex counts at
maxDepth, allocates the three flat arrays to exactly those element counts
(malloc leaves them uninitialised; here each cell holds the default element),
and stores maxDepth and the cage. -/
def ccs_Create (cage : cc_Mesh) (maxDepth : Nat) : cc_Subd :=
  let halfedgeCount := ccs_CumulativeHalfedgeCountAtDepth cage maxDepth
  let creaseCount := ccs_CumulativeCreaseCountAtDepth cage maxDepth
  let vertexCount := ccs_CumulativeVertexCountAtDepth cage maxDepth
  { cage := cage
    halfedges := List.replicate halfedgeCount.toNat default
    creases := List.replicate creaseCount.toNat default
    vertexPoints := List.replicate vertexCount.toNat default
    maxDepth := maxDepth }

def ccs_CumulativeFaceCount (subd : cc_Subd) : Int :=
  ccs_CumulativeFaceCountAtDepth subd.cage (ccs_MaxDepth subd)

def ccs_CumulativeEdgeCount (subd : cc_Subd) : Int :=
  ccs_CumulativeEdgeCountAtDepth subd.cage (ccs_MaxDepth subd)

def ccs_CumulativeHalfedgeCount (subd : cc_Subd) : Int :=
  ccs_CumulativeHalfedgeCountAtDepth subd.cage (ccs_MaxDepth subd)

def ccs_CumulativeCreaseCount (subd : cc_Subd) : Int :=
  ccs_CumulativeCreaseCountAtDepth subd.cage (ccs_MaxDepth subd)

def ccs_CumulativeVertexCount (subd : cc_Subd) : Int :=
  ccs_CumulativeVertexCountAtDepth subd.cage (ccs_MaxDepth subd)

/-! ## A concrete cage: a single quad (the spec's own small example,
V0 = 4, E0 = 4, H0 = 4, F0 = 1, C0 = 4), with all boundary twins -1. -/

def quadCage : cc_Mesh :=
  { vertexCount := 4
    uvCount := 4
    halfedgeCount := 4
    edgeCount := 4
    faceCount := 1
    vertexToHalfedgeIDs := [0, 1, 2, 3]
    edgeToHalfedgeIDs := [0, 1, 2, 3]
    faceToHalfedgeIDs := [0]
    halfedges :=
      [{ twinID := -1, nextID := 1, prevID := 3, faceID := 0, edgeID := 0, vertexID := 0, uvID := 0 },
       { twinID := -1, nextID := 2, prevID := 0, faceID := 0, edgeID := 1, vertexID := 1, uvID := 1 },
       { twinID := -1, nextID := 3, prevID := 1, faceID := 0, edgeID := 2, vertexID := 2, uvID := 2 },
       { twinID := -1, nextID := 0, prevID := 2, faceID := 0, edgeID := 3, vertexID := 3, uvID := 3 }]
    creases :=
      [{ sharpness := 0, nextID := 1, prevID := 3 },
       { sharpness := 0, nextID := 2, prevID := 0 },
       { sharpness := 0, nextID := 3, prevID := 1 },
       { sharpness := 0, nextID := 0, prevID := 2 }]
    vertexPoints :=
      [{ x := 0, y := 0, z := 0 }, { x := 1, y := 0, z := 0 },
       { x := 1, y := 1, z := 0 }, { x := 0, y := 1, z := 0 }]
    uvs :=
      [{ u := 0, v := 0 }, { u := 1, v := 0 }, { u := 1, v := 1 }, { u := 0, v := 1 }] }

/-- C2 counterexample. At the quad cage and depth 0, the cumulative halfedge
count is 0, not the sum of the per-level halfedge counts over levels 0..0
(which is the cage's halfedge count 4): the cumulative formulas do not start
their sums at level 0 for quantities defined at level 0. -/
theorem cumulativeHalfedge_at_zero_ne_sum_from_level_zero :
    ccs_CumulativeHalfedgeCountAtDepth quadCage 0 ≠
      ∑ k ∈ Finset.range (0 + 1), ccm_HalfedgeCountAtDepth quadCage k := by
  decide

/-- C2 (amended). For every cage and every depth d, each cumulative counting
function equals the sum of the corresponding per-level counting function over
levels 1..d: level 0 (the cage itself, whose data the subd references rather
than stores) is excluded from every cumulative count, including the halfedge,
crease, vertex and edge counts that are defined at level 0. -/
theorem cumulativeCounts_eq_sums_from_level_one (cage : cc_Mesh) (d : Nat) :
    ccs_CumulativeFaceCountAtDepth cage d =
        (∑ k ∈ Finset.range d, ccm_FaceCountAtDepth cage (k + 1)) ∧
    ccs_CumulativeEdgeCountAtDepth cage d =
        (∑ k ∈ Finset.range d, ccm_EdgeCountAtDepth cage (k + 1)) ∧
    ccs_CumulativeHalfedgeCountAtDepth cage d =
        (∑ k ∈ Finset.range d, ccm_HalfedgeCountAtDepth cage (k + 1)) ∧
    ccs_CumulativeCreaseCountAtDepth cage d =
        (∑ k ∈ Finset.range d, ccm_CreaseCountAtDepth cage (k + 1)) ∧
    ccs_CumulativeVertexCountAtDepth cage d =
        (∑ k ∈ Finset.range d, ccm_VertexCountAtDepth cage (k + 1)) := by
  refine ⟨?_, cumulativeEdge_eq_sum cage d, ?_, (sum_crease_levels cage d).symm,
    cumulativeVertex_eq_sum cage d⟩
  · rw [sum_face_levels, ccs_CumulativeFaceCountAtDepth, cumulativeHalfedge_eq_geo]
    rw [show 4 * ccm_HalfedgeCount cage * ∑ k ∈ Finset.range d, (4 : Int) ^ k =
        4 * (ccm_HalfedgeCount cage * ∑ k ∈ Finset.range d, (4 : Int) ^ k) by ring]
    exact Int.mul_ediv_cancel_left _ (by norm_num)
  · rw [cumulativeHalfedge_eq_geo, sum_halfedge_levels]

/-- C3. The cumulative halfedge, crease, edge and vertex counts at maxDepth
are the sums of the per-level counts over levels 1..maxDepth (the cage level
is excluded), and ccs_Create allocates its halfedge, crease and vertex-point
arrays with exactly these cumulative element counts, storing maxDepth and the
cage unchanged. -/
theorem ccs_Create_allocates_cumulative_counts (cage : cc_Mesh) (maxDepth : Nat) :
    (ccs_Create cage maxDepth).halfedges.length =
        (ccs_CumulativeHalfedgeCountAtDepth cage maxDepth).toNat ∧
    (ccs_Create cage maxDepth).creases.length =
        (ccs_CumulativeCreaseCountAtDepth cage maxDepth).toNat ∧
    (ccs_Create cage maxDepth).vertexPoints.length =
        (ccs_CumulativeVertexCountAtDepth cage maxDepth).toNat ∧
    (ccs_Create cage maxDepth).maxDepth = maxDepth ∧
    (ccs_Create cage maxDepth).cage = cage ∧
    ccs_CumulativeHalfedgeCountAtDepth cage maxDepth =
        (∑ k ∈ Finset.range maxDepth, ccm_HalfedgeCountAtDepth cage (k + 1)) ∧
    ccs_CumulativeCreaseCountAtDepth cage maxDepth =
        (∑ k ∈ Finset.range maxDepth, ccm_CreaseCountAtDepth cage (k + 1)) ∧
    ccs_CumulativeEdgeCountAtDepth cage maxDepth =
        (∑ k ∈ Finset.range maxDepth, ccm_EdgeCountAtDepth cage (k + 1)) ∧
    ccs_CumulativeVertexCountAtDepth cage maxDepth =
        (∑ k ∈ Finset.range maxDepth, ccm_VertexCountAtDepth cage (k + 1)) := by
  refine ⟨?_, ?_, ?_, rfl, rfl, ?_, (sum_crease_levels cage maxDepth).symm,
    cumulativeEdge_eq_sum cage maxDepth, cumulativeVertex_eq_sum cage maxDepth⟩
  · simp [ccs_Create]
  · simp [ccs_Create]
  · simp [ccs_Create]
  · rw [cumulativeHalfedge_eq_geo, sum_halfedge_levels]

/-- C10. For every cage and depth, the cumulative halfedge count is divisible
by 4, the cumulative face count is exactly one quarter of it (the right shift
by 2 loses nothing), and it equals the sum of the per-level face counts over
levels 1..depth. -/
theorem cumulativeFace_is_quarter_of_cumulativeHalfedge (cage : cc_Mesh) (depth : Nat) :
    (4 : Int) ∣ ccs_CumulativeHalfedgeCountAtDepth cage depth ∧
    ccs_CumulativeFaceCountAtDepth cage depth * 4 =
        ccs_CumulativeHalfedgeCountAtDepth cage depth ∧
    ccs_CumulativeFaceCountAtDepth cage depth =
        (∑ k ∈ Finset.range depth, ccm_FaceCountAtDepth cage (k + 1)) := by
  have hq : ccs_CumulativeFaceCountAtDepth cage depth =
      ccm_HalfedgeCount cage * ∑ k ∈ Finset.range depth, (4 : Int) ^ k := by
    rw [ccs_CumulativeFaceCountAtDepth, cumulativeHalfedge_eq_geo]
    rw [show 4 * ccm_HalfedgeCount cage * ∑ k ∈ Finset.range depth, (4 : Int) ^ k =
        4 * (ccm_HalfedgeCount cage * ∑ k ∈ Finset.range depth, (4 : Int) ^ k) by ring]
    exact Int.mul_ediv_cancel_left _ (by norm_num)
  refine ⟨?_, ?_, ?_⟩
  · rw [cumulativeHalfedge_eq_geo]
    exact ⟨ccm_HalfedgeCount cage * ∑ k ∈ Finset.range depth, (4 : Int) ^ k, by ring⟩
  · rw [hq, cumulativeHalfedge_eq_geo]; ring
  · rw [hq, sum_face_levels]

/-! ## Cage data accessors (Mesh.cpp lines 197-351) -/

/-- Modelled from the spec: the private cage halfedge accessor (declared in the
mesh header, which is not under src/) is an O(1) indexation of the flat
halfedge array (spec section 4.1). -/
def ccm__Halfedge (mesh : cc_Mesh) (halfedgeID : Int) : cc_Halfedge :=
  mesh.halfedges.getD halfedgeID.toNat default

/-- Modelled from the spec: the private cage crease accessor (declared in the
mesh header, which is not under src/) is an O(1) indexation of the flat
crease array (spec section 4.1). -/
def ccm__Crease (mesh : cc_Mesh) (edgeID : Int) : cc_Crease :=
  mesh.creases.getD edgeID.toNat default

def ccm_HalfedgeTwinID (mesh : cc_Mesh) (halfedgeID : Int) : Int :=
  (ccm__Halfedge mesh halfedgeID).twinID

def ccm_HalfedgeNextID (mesh : cc_Mesh) (halfedgeID : Int) : Int :=
  (ccm__Halfedge mesh halfedgeID).nextID

def ccm_HalfedgePrevID (mesh : cc_Mesh) (halfedgeID : Int) : Int :=
  (ccm__Halfedge mesh halfedgeID).prevID

def ccm_HalfedgeVertexID (mesh : cc_Mesh) (halfedgeID : Int) : Int :=
  (ccm__Halfedge mesh halfedgeID).vertexID

def ccm_HalfedgeUvID (mesh : cc_Mesh) (halfedgeID : Int) : Int :=
  (ccm__Halfedge mesh halfedgeID).uvID

def ccm_HalfedgeEdgeID (mesh : cc_Mesh) (halfedgeID : Int) : Int :=
  (ccm__Halfedge mesh halfedgeID).edgeID

def ccm_HalfedgeFaceID (mesh : cc_Mesh) (halfedgeID : Int) : Int :=
  (ccm__Halfedge mesh halfedgeID).faceID

def ccm_CreaseNextID (mesh : cc_Mesh) (edgeID : Int) : Int :=
  (ccm__Crease mesh edgeID).nextID

def ccm_CreasePrevID (mesh : cc_Mesh) (edgeID : Int) : Int :=
  (ccm__Crease mesh edgeID).prevID

def ccm_CreaseSharpness (mesh : cc_Mesh) (edgeID : Int) : ℚ :=
  (ccm__Crease mesh edgeID).sharpness

def ccm_HalfedgeSharpness (mesh : cc_Mesh) (halfedgeID : Int) : ℚ :=
  ccm_CreaseSharpness mesh (ccm_HalfedgeEdgeID mesh halfedgeID)

/-- ccm_HalfedgeFaceID_Quad: halfedgeID shifted right by 2 (Mesh.cpp line 269). -/
def ccm_HalfedgeFaceID_Quad (halfedgeID : Int) : Int :=
  halfedgeID / 4

/-- Modelled from the spec: the private quad scroll helper (declared in the
mesh header, which is not under src/) moves to the next or previous halfedge
within a face of 4 by incrementing or decrementing the low 2 bits modulo 4
while keeping the high bits fixed (spec section 4.4). On two's-complement
int32_t this is (h bitand not-3) bitor ((h bitand 3) + dir bitand 3), which
over the integers is 4 * floor(h / 4) + ((h mod 4) + dir mod 4). -/
def ccm__ScrollFaceHalfedgeID_Quad (halfedgeID : Int) (dir : Int) : Int :=
  4 * (halfedgeID / 4) + (halfedgeID % 4 + dir) % 4

def ccm_HalfedgeNextID_Quad (halfedgeID : Int) : Int :=
  ccm__ScrollFaceHalfedgeID_Quad halfedgeID 1

def ccm_HalfedgePrevID_Quad (halfedgeID : Int) : Int :=
  ccm__ScrollFaceHalfedgeID_Quad halfedgeID (-1)

def ccm_VertexPoint (mesh : cc_Mesh) (vertexID : Int) : cc_VertexPoint :=
  mesh.vertexPoints.getD vertexID.toNat default

def ccm_Uv (mesh : cc_Mesh) (uvID : Int) : cc_VertexUv :=
  mesh.uvs.getD uvID.toNat default

def ccm_VertexToHalfedgeID (mesh : cc_Mesh) (vertexID : Int) : Int :=
  mesh.vertexToHalfedgeIDs.getD vertexID.toNat default

def ccm_EdgeToHalfedgeID (mesh : cc_Mesh) (edgeID : Int) : Int :=
  mesh.edgeToHalfedgeIDs.getD edgeID.toNat default

def ccm_FaceToHalfedgeID (mesh : cc_Mesh) (faceID : Int) : Int :=
  mesh.faceToHalfedgeIDs.getD faceID.toNat default

def ccm_FaceToHalfedgeID_Quad (faceID : Int) : Int :=
  faceID * 4

/-- ccm_NextVertexHalfedgeID (Mesh.cpp line 339): next(twin) when the twin is
non-negative, -1 otherwise. -/
def ccm_NextVertexHalfedgeID (mesh : cc_Mesh) (halfedgeID : Int) : Int :=
  let twinID := ccm_HalfedgeTwinID mesh halfedgeID
  if 0 ≤ twinID then ccm_HalfedgeNextID mesh twinID else -1

/-- ccm_PrevVertexHalfedgeID (Mesh.cpp line 346): twin(prev), unconditionally. -/
def ccm_PrevVertexHalfedgeID (mesh : cc_Mesh) (halfedgeID : Int) : Int :=
  ccm_HalfedgeTwinID mesh (ccm_HalfedgePrevID mesh halfedgeID)

/-! ## Subd crease accessors (Mesh.cpp lines 578-635) -/

/-- Modelled from the spec: the private subd crease accessor (declared in the
mesh header, which is not under src/) reads the stride-addressed flat crease
array, the stride being the cumulative crease count through depth - 1
(spec sections 3 and 4.4). -/
def ccs__Crease (subd : cc_Subd) (edgeID : Int) (depth : Nat) : cc_Crease :=
  let stride := ccs_CumulativeCreaseCountAtDepth subd.cage (depth - 1)
  subd.creases.getD (stride + edgeID).toNat default

def ccs_CreaseSharpness_Fast (subd : cc_Subd) (edgeID : Int) (depth : Nat) : ℚ :=
  (ccs__Crease subd edgeID depth).sharpness

/-- ccs_CreaseSharpness: the stored sharpness below the crease count at the
depth, 0 at and beyond it. -/
def ccs_CreaseSharpness (subd : cc_Subd) (edgeID : Int) (depth : Nat) : ℚ :=
  let creaseCount := ccm_CreaseCountAtDepth subd.cage depth
  if edgeID < creaseCount then ccs_CreaseSharpness_Fast subd edgeID depth else 0

def ccs_CreaseNextID_Fast (subd : cc_Subd) (edgeID : Int) (depth : Nat) : Int :=
  (ccs__Crease subd edgeID depth).nextID

/-- ccs_CreaseNextID: the stored next link below the crease count at the
depth, the input id itself at and beyond it. -/
def ccs_CreaseNextID (subd : cc_Subd) (edgeID : Int) (depth : Nat) : Int :=
  let creaseCount := ccm_CreaseCountAtDepth subd.cage depth
  if edgeID < creaseCount then ccs_CreaseNextID_Fast subd edgeID depth else edgeID

def ccs_CreasePrevID_Fast (subd : cc_Subd) (edgeID : Int) (depth : Nat) : Int :=
  (ccs__Crease subd edgeID depth).prevID

/-- ccs_CreasePrevID: the stored prev link below the crease count at the
depth, the input id itself at and beyond it. -/
def ccs_CreasePrevID (subd : cc_Subd) (edgeID : Int) (depth : Nat) : Int :=
  let creaseCount := ccm_CreaseCountAtDepth subd.cage depth
  if edgeID < creaseCount then ccs_CreasePrevID_Fast subd edgeID depth else edgeID

/-! ## Subd halfedge accessors (Mesh.cpp lines 638-757) -/

/-- Modelled from the spec: the private subd halfedge accessor (declared in
the mesh header, which is not under src/) reads the stride-addressed flat
halfedge array, the stride being the cumulative halfedge count through
depth - 1 (spec sections 3 and 4.4). -/
def ccs__Halfedge (subd : cc_Subd) (halfedgeID : Int) (depth : Nat) :
    cc_Halfedge_SemiRegular :=
  let stride := ccs_CumulativeHalfedgeCountAtDepth subd.cage (depth - 1)
  subd.halfedges.getD (stride + halfedgeID).toNat default

def ccs_HalfedgeVertexID (subd : cc_Subd) (halfedgeID : Int) (depth : Nat) : Int :=
  (ccs__Halfedge subd halfedgeID depth).vertexID

def ccs_HalfedgeTwinID (subd : cc_Subd) (halfedgeID : Int) (depth : Nat) : Int :=
  (ccs__Halfedge subd halfedgeID depth).twinID

/-- ccs_HalfedgeNextID ignores the subd and depth: quad arithmetic only. -/
def ccs_HalfedgeNextID (_subd : cc_Subd) (halfedgeID : Int) (_depth : Nat) : Int :=
  ccm_HalfedgeNextID_Quad halfedgeID

/-- ccs_HalfedgePrevID ignores the subd and depth: quad arithmetic only. -/
def ccs_HalfedgePrevID (_subd : cc_Subd) (halfedgeID : Int) (_depth : Nat) : Int :=
  ccm_HalfedgePrevID_Quad halfedgeID

/-- ccs_HalfedgeFaceID ignores the subd and depth: quad arithmetic only. -/
def ccs_HalfedgeFaceID (_subd : cc_Subd) (halfedgeID : Int) (_depth : Nat) : Int :=
  ccm_HalfedgeFaceID_Quad halfedgeID

def ccs_HalfedgeEdgeID (subd : cc_Subd) (halfedgeID : Int) (depth : Nat) : Int :=
  (ccs__Halfedge subd halfedgeID depth).edgeID

def ccs_HalfedgeSharpness (subd : cc_Subd) (halfedgeID : Int) (depth : Nat) : ℚ :=
  ccs_CreaseSharpness subd (ccs_HalfedgeEdgeID subd halfedgeID depth) depth

/-- ccs_PrevVertexHalfedgeID (Mesh.cpp line 729): twin(prev), as at the cage. -/
def ccs_PrevVertexHalfedgeID (subd : cc_Subd) (halfedgeID : Int) (depth : Nat) : Int :=
  ccs_HalfedgeTwinID subd (ccs_HalfedgePrevID subd halfedgeID depth) depth

/-- ccs_NextVertexHalfedgeID (Mesh.cpp line 737): quad-next of the twin,
applied unconditionally — unlike the cage version there is no check that the
twin is non-negative. -/
def ccs_NextVertexHalfedgeID (subd : cc_Subd) (halfedgeID : Int) (depth : Nat) : Int :=
  ccs_HalfedgeNextID subd (ccs_HalfedgeTwinID subd halfedgeID depth) depth

def ccs_FaceToHalfedgeID (_subd : cc_Subd) (faceID : Int) (_depth : Nat) : Int :=
  ccm_FaceToHalfedgeID_Quad faceID

/-- C4. For every subd, depth and edgeID: at or beyond the crease count at
that depth the crease accessors return the sentinel values (sharpness 0,
next and prev equal to the input id) — for every such out-of-range id, with
no upper bound — and below it they read the stored crease record. -/
theorem ccs_Crease_sentinel (subd : cc_Subd) (edgeID : Int) (depth : Nat) :
    (ccm_CreaseCountAtDepth subd.cage depth ≤ edgeID →
      ccs_CreaseSharpness subd edgeID depth = 0 ∧
      ccs_CreaseNextID subd edgeID depth = edgeID ∧
      ccs_CreasePrevID subd edgeID depth = edgeID) ∧
    (edgeID < ccm_CreaseCountAtDepth subd.cage depth →
      ccs_CreaseSharpness subd edgeID depth = ccs_CreaseSharpness_Fast subd edgeID depth ∧
      ccs_CreaseNextID subd edgeID depth = ccs_CreaseNextID_Fast subd edgeID depth ∧
      ccs_CreasePrevID subd edgeID depth = ccs_CreasePrevID_Fast subd edgeID depth) := by
  constructor
  · intro hout
    have hn : ¬ edgeID < ccm_CreaseCountAtDepth subd.cage depth := not_lt.mpr hout
    simp [ccs_CreaseSharpness, ccs_CreaseNextID, ccs_CreasePrevID, hn]
  · intro hin
    simp [ccs_CreaseSharpness, ccs_CreaseNextID, ccs_CreasePrevID, hin]

/-- C4 witness: at the quad cage subdivided twice, depth 1 has crease count 8;
id 99 gets the sentinel values and id 3 reads the stored record. -/
theorem ccs_Crease_sentinel_witness :
    ccs_CreaseSharpness (ccs_Create quadCage 2) 99 1 = 0 ∧
    ccs_CreaseNextID (ccs_Create quadCage 2) 99 1 = 99 ∧
    ccs_CreasePrevID (ccs_Create quadCage 2) 99 1 = 99 ∧
    ccs_CreaseNextID (ccs_Create quadCage 2) 3 1 =
      ccs_CreaseNextID_Fast (ccs_Create quadCage 2) 3 1 := by
  obtain ⟨a, b, c⟩ := (ccs_Crease_sentinel (ccs_Create quadCage 2) 99 1).1 (by decide)
  exact ⟨a, b, c, ((ccs_Crease_sentinel (ccs_Create quadCage 2) 3 1).2 (by decide)).2.1⟩

/-- C6. At every depth the subd face id of a halfedge id h is h shifted right
by 2; next and prev increment and decrement the low 2 bits modulo 4 while
keeping the high bits (the face id) fixed; the four ids of a face cycle under
repeated next; and prev is the inverse of next. -/
theorem ccs_quad_topology (subd : cc_Subd) (depth : Nat) (h : Int) :
    ccs_HalfedgeFaceID subd h depth = h / 4 ∧
    ccs_HalfedgeFaceID subd (ccs_HalfedgeNextID subd h depth) depth =
        ccs_HalfedgeFaceID subd h depth ∧
    ccs_HalfedgeFaceID subd (ccs_HalfedgePrevID subd h depth) depth =
        ccs_HalfedgeFaceID subd h depth ∧
    ccs_HalfedgeNextID subd h depth % 4 = (h % 4 + 1) % 4 ∧
    ccs_HalfedgePrevID subd h depth % 4 = (h % 4 - 1) % 4 ∧
    ccs_HalfedgePrevID subd (ccs_HalfedgeNextID subd h depth) depth = h ∧
    ccs_HalfedgeNextID subd (ccs_HalfedgePrevID subd h depth) depth = h ∧
    ccs_HalfedgeNextID subd
        (ccs_HalfedgeNextID subd
          (ccs_HalfedgeNextID subd (ccs_HalfedgeNextID subd h depth) depth) depth)
        depth = h := by
  refine ⟨rfl, ?_, ?_, ?_, ?_, ?_, ?_, ?_⟩ <;>
    simp only [ccs_HalfedgeFaceID, ccs_HalfedgeNextID, ccs_HalfedgePrevID,
      ccm_HalfedgeFaceID_Quad, ccm_HalfedgeNextID_Quad, ccm_HalfedgePrevID_Quad,
      ccm__ScrollFaceHalfedgeID_Quad] <;>
    omega

/-- A subd over the quad cage whose level-1 halfedge array holds a boundary
halfedge (twin -1) at id 0; level-1 data starts at stride 0. -/
def boundarySubd : cc_Subd :=
  { cage := quadCage
    halfedges := [{ twinID := -1, edgeID := 0, vertexID := 0, uvID := 0 }]
    creases := []
    vertexPoints := []
    maxDepth := 1 }

/-- C7 counterexample. In a subd whose level-1 array holds a boundary
halfedge (twin -1) at id 0, the forward vertex rotation does not return -1:
it returns quad-next of -1, which is -4. The subd-level rotation lacks the
cage-level guard on a -1 twin. -/
theorem ccs_NextVertexHalfedge_boundary_not_minus_one :
    ccs_HalfedgeTwinID boundarySubd 0 1 = -1 ∧
    ccs_NextVertexHalfedgeID boundarySubd 0 1 ≠ -1 := by decide

/-- C7 (amended). The cage-level rotation behaves as claimed: next-of-twin
forward with a -1 guard, twin-of-prev backward. The subd-level backward
rotation is twin-of-prev as claimed, and the forward rotation is next-of-twin
when the twin is non-negative; but when the twin is -1 it applies quad-next
to -1 and returns -4, not -1 — the subd forward rotation has no boundary
guard. -/
theorem vertexHalfedgeRotation (mesh : cc_Mesh) (subd : cc_Subd) (h k : Int)
    (depth : Nat) :
    (ccm_HalfedgeTwinID mesh h = -1 → ccm_NextVertexHalfedgeID mesh h = -1) ∧
    (0 ≤ ccm_HalfedgeTwinID mesh h →
      ccm_NextVertexHalfedgeID mesh h =
        ccm_HalfedgeNextID mesh (ccm_HalfedgeTwinID mesh h)) ∧
    ccm_PrevVertexHalfedgeID mesh h =
      ccm_HalfedgeTwinID mesh (ccm_HalfedgePrevID mesh h) ∧
    ccs_PrevVertexHalfedgeID subd k depth =
      ccs_HalfedgeTwinID subd (ccs_HalfedgePrevID subd k depth) depth ∧
    (0 ≤ ccs_HalfedgeTwinID subd k depth →
      ccs_NextVertexHalfedgeID subd k depth =
        ccs_HalfedgeNextID subd (ccs_HalfedgeTwinID subd k depth) depth) ∧
    (ccs_HalfedgeTwinID subd k depth = -1 →
      ccs_NextVertexHalfedgeID subd k depth = -4) := by
  refine ⟨?_, ?_, rfl, rfl, fun _ => rfl, ?_⟩
  · intro hm
    simp [ccm_NextVertexHalfedgeID, hm]
  · intro hm
    simp [ccm_NextVertexHalfedgeID, hm]
  · intro hs
    simp only [ccs_NextVertexHalfedgeID, ccs_HalfedgeNextID, hs,
      ccm_HalfedgeNextID_Quad, ccm__ScrollFaceHalfedgeID_Quad]
    decide

/-- C7 witness: the quad cage's halfedge 0 is a boundary halfedge and its
forward rotation returns -1; the boundary subd's halfedge 0 has twin -1 and
its forward rotation returns -4. -/
theorem vertexHalfedgeRotation_witness :
    ccm_NextVertexHalfedgeID quadCage 0 = -1 ∧
    ccs_NextVertexHalfedgeID boundarySubd 0 1 = -4 := by
  refine ⟨(vertexHalfedgeRotation quadCage boundarySubd 0 0 1).1 (by decide),
    (vertexHalfedgeRotation quadCage boundarySubd 0 0 1).2.2.2.2.2 (by decide)⟩

/-! ## Edge-to-halfedge resolver (Mesh.cpp lines 760-842) -/

/-- Modelled from the spec: the private level-1 resolver
ccs__EdgeToHalfedgeID_First (declared in the mesh header, which is not under
src/) initialises the descent at level 1 via the cage's own edge-to-halfedge
map composed with one subdivision step (spec section 4.5): a level-1 edge id
in the spoke band [2 E0, 2 E0 + H0) indexes a cage halfedge directly and
yields max(4 h + 1, 4 next(h) + 2) with the cage's stored next link; an id in
the second radial band [E0, 2 E0) maps its cage edge through the cage's
edge-to-halfedge array and yields 4 next(h) + 3; an id in the first radial
band [0, E0) yields 4 h. -/
def ccs__EdgeToHalfedgeID_First (cage : cc_Mesh) (edgeID : Int) : Int :=
  let edgeCount := ccm_EdgeCount cage
  if 2 * edgeCount ≤ edgeID then
    let halfedgeID := edgeID - 2 * edgeCount
    max (4 * halfedgeID + 1) (4 * ccm_HalfedgeNextID cage halfedgeID + 2)
  else if edgeCount ≤ edgeID then
    4 * ccm_HalfedgeNextID cage (ccm_EdgeToHalfedgeID cage (edgeID - edgeCount)) + 3
  else
    4 * ccm_EdgeToHalfedgeID cage edgeID

/-- The recursive reference version of ccs_EdgeToHalfedgeID exactly as the
source keeps it under "#if 0" (Mesh.cpp lines 774-799): a radial edge id is
classified by its band ([E, 2E) against [0, E)) and halved into the parent
level; the name ccm_NextFaceHalfedgeID_Quad it calls is not declared in the
repository and is embedded as the quad next. -/
def ccs__EdgeToHalfedgeID_RecAux (cage : cc_Mesh) (edgeID : Int) : Nat → Int
  | depth + 2 =>
      let edgeCount := ccm_EdgeCountAtDepth_Fast cage (depth + 1)
      if 2 * edgeCount ≤ edgeID then
        let halfedgeID := edgeID - 2 * edgeCount
        max (4 * halfedgeID + 1) (4 * ccm_HalfedgeNextID_Quad halfedgeID + 2)
      else if edgeCount ≤ edgeID then
        4 * ccm_HalfedgeNextID_Quad
            (ccs__EdgeToHalfedgeID_RecAux cage (edgeID / 2) (depth + 1)) + 3
      else
        4 * ccs__EdgeToHalfedgeID_RecAux cage (edgeID / 2) (depth + 1)
  | _ => ccs__EdgeToHalfedgeID_First cage edgeID

def ccs_EdgeToHalfedgeID_Recursive (subd : cc_Subd) (edgeID : Int) (depth : Nat) : Int :=
  ccs__EdgeToHalfedgeID_RecAux subd.cage edgeID depth

/-- The recursive reference with the radial classification the non-recursive
version actually records: the low bit of the edge id (1 = second-half
transform 4 next(h) + 3, 0 = first-half transform 4 h) instead of the band
test. Everything else is as in the recursive source. -/
def ccs__EdgeToHalfedgeID_RecBitAux (cage : cc_Mesh) (edgeID : Int) : Nat → Int
  | depth + 2 =>
      let edgeCount := ccm_EdgeCountAtDepth_Fast cage (depth + 1)
      if 2 * edgeCount ≤ edgeID then
        let halfedgeID := edgeID - 2 * edgeCount
        max (4 * halfedgeID + 1) (4 * ccm_HalfedgeNextID_Quad halfedgeID + 2)
      else if edgeID % 2 = 1 then
        4 * ccm_HalfedgeNextID_Quad
            (ccs__EdgeToHalfedgeID_RecBitAux cage (edgeID / 2) (depth + 1)) + 3
      else
        4 * ccs__EdgeToHalfedgeID_RecBitAux cage (edgeID / 2) (depth + 1)
  | _ => ccs__EdgeToHalfedgeID_First cage edgeID

def ccs_EdgeToHalfedgeID_RecBit (subd : cc_Subd) (edgeID : Int) (depth : Nat) : Int :=
  ccs__EdgeToHalfedgeID_RecBitAux subd.cage edgeID depth

/-- The loop state of the non-recursive resolver when its build loop stops:
the final loop counter, path word, edge id, and the halfedge id computed at
the break when a spoke band was hit. -/
structure HeapBuild where
  heapDepth : Nat
  heap : Nat
  edgeID : Int
  spoke : Option Int
deriving DecidableEq, Repr

/-- The build-heap loop of ccs_EdgeToHalfedgeID (Mesh.cpp lines 806-820):
while heapDepth > 1, either break in a spoke band with an immediate halfedge
id, or push the low bit of edgeID into the 32-bit path word — wrapping
modulo 2 ^ 32, as uint32_t arithmetic does — and halve edgeID. -/
def ccs__BuildHeap (cage : cc_Mesh) : Int → Nat → Nat → HeapBuild
  | edgeID, heap, heapDepth + 2 =>
      let edgeCount := ccm_EdgeCountAtDepth_Fast cage (heapDepth + 1)
      if 2 * edgeCount ≤ edgeID then
        let halfedgeID := edgeID - 2 * edgeCount
        { heapDepth := heapDepth + 2, heap := heap, edgeID := edgeID,
          spoke := some (max (4 * halfedgeID + 1)
                             (4 * ccm_HalfedgeNextID_Quad halfedgeID + 2)) }
      else
        ccs__BuildHeap cage (edgeID / 2)
          ((heap * 2 + (edgeID % 2).toNat) % 4294967296) (heapDepth + 1)
  | edgeID, heap, heapDepth =>
      { heapDepth := heapDepth, heap := heap, edgeID := edgeID, spoke := none }

/-- The build-heap loop with an unbounded path word: identical to
ccs__BuildHeap except that nothing is reduced modulo 2 ^ 32. -/
def ccs__BuildHeapNW (cage : cc_Mesh) : Int → Nat → Nat → HeapBuild
  | edgeID, heap, heapDepth + 2 =>
      let edgeCount := ccm_EdgeCountAtDepth_Fast cage (heapDepth + 1)
      if 2 * edgeCount ≤ edgeID then
        let halfedgeID := edgeID - 2 * edgeCount
        { heapDepth := heapDepth + 2, heap := heap, edgeID := edgeID,
          spoke := some (max (4 * halfedgeID + 1)
                             (4 * ccm_HalfedgeNextID_Quad halfedgeID + 2)) }
      else
        ccs__BuildHeapNW cage (edgeID / 2)
          (heap * 2 + (edgeID % 2).toNat) (heapDepth + 1)
  | edgeID, heap, heapDepth =>
      { heapDepth := heapDepth, heap := heap, edgeID := edgeID, spoke := none }

/-- The read-heap loop (Mesh.cpp lines 827-838): while the path word is above
its sentinel bit, apply 4 next(h) + 3 for a 1 bit and 4 h for a 0 bit,
shifting the word right once per step. -/
def ccs__ReadHeap (heap : Nat) (edgeHalfedgeID : Int) : Int :=
  if h1 : 1 < heap then
    ccs__ReadHeap (heap / 2)
      (if heap % 2 = 1 then 4 * ccm_HalfedgeNextID_Quad edgeHalfedgeID + 3
       else 4 * edgeHalfedgeID)
  else edgeHalfedgeID
termination_by heap
decreasing_by exact Nat.div_lt_self (by omega) (by omega)

/-- ccs_EdgeToHalfedgeID after its build loop: a spoke break carries its
halfedge id into the replay; otherwise, when the loop counter reached 1, the
root configuration is initialised at level 1 through the cage map; a depth of
0 leaves the id 0. The replay then reads the path word back. -/
def ccs__Resolve (cage : cc_Mesh) (edgeID : Int) (heap : Nat) (depth : Nat) : Int :=
  let b := ccs__BuildHeap cage edgeID heap depth
  let root : Int :=
    match b.spoke with
    | some v => v
    | none => if b.heapDepth = 1 then ccs__EdgeToHalfedgeID_First cage b.edgeID else 0
  ccs__ReadHeap b.heap root

/-- Same pipeline over the unbounded path word. -/
def ccs__ResolveNW (cage : cc_Mesh) (edgeID : Int) (heap : Nat) (depth : Nat) : Int :=
  let b := ccs__BuildHeapNW cage edgeID heap depth
  let root : Int :=
    match b.spoke with
    | some v => v
    | none => if b.heapDepth = 1 then ccs__EdgeToHalfedgeID_First cage b.edgeID else 0
  ccs__ReadHeap b.heap root

/-- ccs_EdgeToHalfedgeID (Mesh.cpp lines 768-842), the compiled non-recursive
version: path word starting at its sentinel value 1. -/
def ccs_EdgeToHalfedgeID (subd : cc_Subd) (edgeID : Int) (depth : Nat) : Int :=
  ccs__Resolve subd.cage edgeID 1 depth

/-- The non-recursive resolver with an unbounded path word. -/
def ccs_EdgeToHalfedgeID_NoWrap (subd : cc_Subd) (edgeID : Int) (depth : Nat) : Int :=
  ccs__ResolveNW subd.cage edgeID 1 depth

/-! ## Replay lemmas for the path word -/

lemma ccs__ReadHeap_le_one (heap : Nat) (x : Int) (h : heap ≤ 1) :
    ccs__ReadHeap heap x = x := by
  rw [ccs__ReadHeap.eq_def]
  rw [dif_neg (by omega : ¬ 1 < heap)]

lemma ccs__ReadHeap_step (heap b : Nat) (x : Int) (hh : 1 ≤ heap) (hb : b ≤ 1) :
    ccs__ReadHeap (heap * 2 + b) x =
      ccs__ReadHeap heap
        (if b = 1 then 4 * ccm_HalfedgeNextID_Quad x + 3 else 4 * x) := by
  rw [ccs__ReadHeap.eq_def]
  rw [dif_pos (by omega : 1 < heap * 2 + b)]
  have hdiv : (heap * 2 + b) / 2 = heap := by omega
  have hmod : (heap * 2 + b) % 2 = b := by omega
  rw [hdiv, hmod]

lemma ccs__ReadHeap_two_pow (n : Nat) (x : Int) :
    ccs__ReadHeap (2 ^ n) x = 4 ^ n * x := by
  induction n generalizing x with
  | zero => rw [pow_zero, ccs__ReadHeap_le_one 1 x le_rfl, pow_zero, one_mul]
  | succ m ih =>
      rw [show (2 : Nat) ^ (m + 1) = 2 ^ m * 2 + 0 by rw [pow_succ]; omega,
        ccs__ReadHeap_step _ 0 _ (Nat.one_le_pow m 2 (by norm_num)) (by omega)]
      rw [if_neg (by omega : ¬ (0 : Nat) = 1), ih, pow_succ]
      ring

/-- With an unbounded path word, the descend-and-replay pipeline started at
any sentinel word computes the replay of the bit-classified recursive
reference: each recorded bit is exactly the low bit the recursive reference
would branch on. -/
lemma ccs__ResolveNW_eq_recBit (cage : cc_Mesh) :
    ∀ (depth : Nat) (edgeID : Int) (heap : Nat), 1 ≤ heap → 1 ≤ depth →
      ccs__ResolveNW cage edgeID heap depth =
        ccs__ReadHeap heap (ccs__EdgeToHalfedgeID_RecBitAux cage edgeID depth) := by
  intro depth
  induction depth with
  | zero => intro _ _ _ hd; omega
  | succ d ih =>
      cases d with
      | zero => intro edgeID heap hheap _; rfl
      | succ e =>
          intro edgeID heap hheap _
          show ccs__ResolveNW cage edgeID heap (e + 2) =
            ccs__ReadHeap heap (ccs__EdgeToHalfedgeID_RecBitAux cage edgeID (e + 2))
          by_cases hband : 2 * ccm_EdgeCountAtDepth_Fast cage (e + 1) ≤ edgeID
          · simp only [ccs__ResolveNW, ccs__BuildHeapNW, ccs__EdgeToHalfedgeID_RecBitAux,
              if_pos hband]
          · have hstep : ccs__ResolveNW cage edgeID heap (e + 2) =
                ccs__ResolveNW cage (edgeID / 2) (heap * 2 + (edgeID % 2).toNat) (e + 1) := by
              simp only [ccs__ResolveNW, ccs__BuildHeapNW, if_neg hband]
            rw [hstep, ih (edgeID / 2) (heap * 2 + (edgeID % 2).toNat) (by omega) (by omega)]
            rw [ccs__ReadHeap_step heap ((edgeID % 2).toNat) _ hheap (by omega)]
            by_cases hodd : edgeID % 2 = 1
            · rw [if_pos (by omega : (edgeID % 2).toNat = 1)]
              simp only [ccs__EdgeToHalfedgeID_RecBitAux, if_neg hband, if_pos hodd]
            · rw [if_neg (by omega : ¬ (edgeID % 2).toNat = 1)]
              simp only [ccs__EdgeToHalfedgeID_RecBitAux, if_neg hband, if_neg hodd]

/-- As long as the word to be built fits: starting from a path word heap with
at most depth - 1 shifts to come and (heap + 1) * 2 ^ (depth - 1) within
2 ^ 32, the wrapping build loop agrees with the unbounded one — no bit is
shifted out of the uint32_t path word. -/
lemma ccs__BuildHeap_eq_NW (cage : cc_Mesh) :
    ∀ (depth : Nat) (edgeID : Int) (heap : Nat),
      (heap + 1) * 2 ^ (depth - 1) ≤ 2 ^ 32 →
      ccs__BuildHeap cage edgeID heap depth = ccs__BuildHeapNW cage edgeID heap depth := by
  intro depth
  induction depth with
  | zero => intro _ _ _; rfl
  | succ d ih =>
      cases d with
      | zero => intro _ _ _; rfl
      | succ e' =>
          intro edgeID heap hbound
          show ccs__BuildHeap cage edgeID heap (e' + 2) =
            ccs__BuildHeapNW cage edgeID heap (e' + 2)
          by_cases hband : 2 * ccm_EdgeCountAtDepth_Fast cage (e' + 1) ≤ edgeID
          · simp only [ccs__BuildHeap, ccs__BuildHeapNW, if_pos hband]
          · have hX : 1 ≤ (2 : Nat) ^ e' := Nat.one_le_pow _ _ (by norm_num)
            have hb32 : (heap + 1) * 2 * 2 ^ e' ≤ 4294967296 := by
              have h0 : (heap + 1) * 2 ^ (e' + 1) ≤ 2 ^ 32 := hbound
              rw [pow_succ] at h0
              calc (heap + 1) * 2 * 2 ^ e' = (heap + 1) * (2 ^ e' * 2) := by ring
                _ ≤ 2 ^ 32 := h0
                _ = 4294967296 := by norm_num
            have hmono : (heap + 1) * 2 ≤ (heap + 1) * 2 * 2 ^ e' :=
              Nat.le_mul_of_pos_right _ (by positivity)
            have hfit : heap * 2 + (edgeID % 2).toNat < 4294967296 := by omega
            have hnext : (heap * 2 + (edgeID % 2).toNat + 1) * 2 ^ e' ≤ 2 ^ 32 := by
              calc (heap * 2 + (edgeID % 2).toNat + 1) * 2 ^ e'
                  ≤ ((heap + 1) * 2) * 2 ^ e' := Nat.mul_le_mul_right _ (by omega)
                _ ≤ 4294967296 := hb32
                _ = 2 ^ 32 := by norm_num
            simp only [ccs__BuildHeap, ccs__BuildHeapNW, if_neg hband]
            rw [Nat.mod_eq_of_lt hfit]
            exact ih (edgeID / 2) _ hnext

/-- At depths up to 32 the wrapping resolver pipeline agrees with the
unbounded one from the sentinel word 1. -/
lemma ccs__Resolve_eq_NW_of_le_32 (cage : cc_Mesh) (edgeID : Int) (depth : Nat)
    (h : depth ≤ 32) :
    ccs__Resolve cage edgeID 1 depth = ccs__ResolveNW cage edgeID 1 depth := by
  have hp : (2 : Nat) ^ (depth - 1) ≤ 2 ^ 31 := Nat.pow_le_pow_right (by norm_num) (by omega)
  have hb : (1 + 1) * 2 ^ (depth - 1) ≤ 2 ^ 32 := by
    calc (1 + 1) * 2 ^ (depth - 1) = 2 * 2 ^ (depth - 1) := by norm_num
      _ ≤ 2 * 2 ^ 31 := by omega
      _ = 2 ^ 32 := by norm_num
  simp only [ccs__Resolve, ccs__ResolveNW, ccs__BuildHeap_eq_NW cage depth edgeID 1 hb]

/-- A subd over the quad cage (only the cage matters to the resolver). -/
def quadSubd : cc_Subd :=
  { cage := quadCage
    halfedges := []
    creases := []
    vertexPoints := []
    maxDepth := 3 }

/-- C5 counterexample. At the quad cage, edge id 12 (in range: the edge count
at depth 2 is 40) and depth 2, the compiled iterative resolver returns 60
(it records the low bit of 12, which is 0, and replays 4 h), while the
source's band-classified recursive reference returns 51 (12 lies in the
second radial band [12, 24), so it applies 4 next(r) + 3): the two
disagree. -/
theorem ccs_EdgeToHalfedgeID_ne_band_recursive :
    ccs_EdgeToHalfedgeID quadSubd 12 2 = 60 ∧
    ccs_EdgeToHalfedgeID_Recursive quadSubd 12 2 = 51 ∧
    ccs_EdgeToHalfedgeID quadSubd 12 2 ≠ ccs_EdgeToHalfedgeID_Recursive quadSubd 12 2 := by
  have h60 : ccs_EdgeToHalfedgeID quadSubd 12 2 = 60 := by
    have hbit : ccs__EdgeToHalfedgeID_RecBitAux quadCage 12 2 = 60 := by decide
    calc ccs_EdgeToHalfedgeID quadSubd 12 2
        = ccs__Resolve quadCage 12 1 2 := rfl
      _ = ccs__ResolveNW quadCage 12 1 2 :=
          ccs__Resolve_eq_NW_of_le_32 quadCage 12 2 (by norm_num)
      _ = ccs__ReadHeap 1 (ccs__EdgeToHalfedgeID_RecBitAux quadCage 12 2) :=
          ccs__ResolveNW_eq_recBit quadCage 2 12 1 le_rfl (by norm_num)
      _ = 60 := by rw [hbit, ccs__ReadHeap_le_one 1 60 le_rfl]
  have h51 : ccs_EdgeToHalfedgeID_Recursive quadSubd 12 2 = 51 := by decide
  exact ⟨h60, h51, by rw [h60, h51]; norm_num⟩

/-- C5 (amended). For every subd, every depth in [1, 32] and every edge id,
the iterative heap-based ccs_EdgeToHalfedgeID equals the recursive
descend/replay reference in which a radial edge id is classified by its low
bit — the bit the descent actually records — rather than by its band: bit 1
yields 4 next(r) + 3 and bit 0 yields 4 r, with r the recursive result for
(edgeID / 2, depth - 1); the spoke band and the level-1 initialisation
through the cage map are as in the source. (The source's dead recursive
reference classifies radial ids by band and disagrees; above depth 32 the
32-bit path word can wrap.) -/
theorem ccs_EdgeToHalfedgeID_eq_bit_recursive (subd : cc_Subd) (edgeID : Int)
    (depth : Nat) (h1 : 1 ≤ depth) (h32 : depth ≤ 32) :
    ccs_EdgeToHalfedgeID subd edgeID depth =
      ccs_EdgeToHalfedgeID_RecBit subd edgeID depth := by
  show ccs__Resolve subd.cage edgeID 1 depth = ccs__EdgeToHalfedgeID_RecBitAux subd.cage edgeID depth
  rw [ccs__Resolve_eq_NW_of_le_32 subd.cage edgeID depth h32,
    ccs__ResolveNW_eq_recBit subd.cage depth edgeID 1 le_rfl h1,
    ccs__ReadHeap_le_one _ _ le_rfl]

/-- C5 witness: at the quad cage, edge id 5, depth 2, both sides agree. -/
theorem ccs_EdgeToHalfedgeID_eq_bit_recursive_witness :
    ccs_EdgeToHalfedgeID quadSubd 5 2 = ccs_EdgeToHalfedgeID_RecBit quadSubd 5 2 :=
  ccs_EdgeToHalfedgeID_eq_bit_recursive quadSubd 5 2 (by norm_num) (by norm_num)

/-- The quad cage with a rotated edge-to-halfedge map, so that the cage map
sends edge 0 to halfedge 1 (a non-zero root for the replay). -/
def deepCage : cc_Mesh := { quadCage with edgeToHalfedgeIDs := [1, 2, 3, 0] }

/-- A subd over deepCage deep enough to exercise 32 path-word shifts. -/
def deepSubd : cc_Subd :=
  { cage := deepCage
    halfedges := []
    creases := []
    vertexPoints := []
    maxDepth := 33 }

/-- The path-word guarantee at a given depth: for every subd and every
in-range edge id, the resolver with its wrapping 32-bit path word computes
the same halfedge id as the resolver with an unbounded path word — no
recorded transform is lost to the word size. -/
def ccs__PathWordIntactAt (depth : Nat) : Prop :=
  ∀ (subd : cc_Subd) (edgeID : Int), 0 ≤ edgeID →
    edgeID < ccm_EdgeCountAtDepth subd.cage depth →
    ccs_EdgeToHalfedgeID subd edgeID depth = ccs_EdgeToHalfedgeID_NoWrap subd edgeID depth

/-- C8 counterexample. The path-word guarantee also holds at depth 32 (the
loop performs at most 31 shifts there, filling the 32-bit word exactly
without shifting the sentinel out), so depth 31 is not the largest depth
with this guarantee. -/
theorem pathWord_intact_at_depth_32 : ccs__PathWordIntactAt 32 :=
  fun subd edgeID _ _ => ccs__Resolve_eq_NW_of_le_32 subd.cage edgeID 32 le_rfl

/-- C8 (amended). For every depth up to 32 — not 31 — and every edge id, the
descend loop shifts in at most depth - 1 ≤ 31 path bits above the sentinel
bit without any bit being shifted out of the 32-bit word, so the replay
applies exactly the recorded transforms and the resolver equals its
unbounded-word variant; 32 is the largest such depth: at depth 33, for a
concrete subd and the in-range edge id 0, the word wraps and the two
variants differ. -/
theorem pathWord_largest_safe_depth_is_32 :
    (∀ (subd : cc_Subd) (edgeID : Int) (depth : Nat), depth ≤ 32 →
      ccs_EdgeToHalfedgeID subd edgeID depth =
        ccs_EdgeToHalfedgeID_NoWrap subd edgeID depth) ∧
    (0 : Int) < ccm_EdgeCountAtDepth deepCage 33 ∧
    ccs_EdgeToHalfedgeID deepSubd 0 33 ≠ ccs_EdgeToHalfedgeID_NoWrap deepSubd 0 33 := by
  refine ⟨fun subd edgeID depth h32 =>
    ccs__Resolve_eq_NW_of_le_32 subd.cage edgeID depth h32, by decide, ?_⟩
  have e1 : ccs_EdgeToHalfedgeID deepSubd 0 33 = 4 := by
    have hb : ccs__BuildHeap deepCage 0 1 33 =
        { heapDepth := 1, heap := 0, edgeID := 0, spoke := none } := by decide
    have hf : ccs__EdgeToHalfedgeID_First deepCage 0 = 4 := by decide
    show ccs__Resolve deepCage 0 1 33 = 4
    simp only [ccs__Resolve, hb, hf]
    exact ccs__ReadHeap_le_one 0 4 (by omega)
  have e2 : ccs_EdgeToHalfedgeID_NoWrap deepSubd 0 33 = 4 ^ 32 * 4 := by
    have hb : ccs__BuildHeapNW deepCage 0 1 33 =
        { heapDepth := 1, heap := 4294967296, edgeID := 0, spoke := none } := by decide
    have hf : ccs__EdgeToHalfedgeID_First deepCage 0 = 4 := by decide
    show ccs__ResolveNW deepCage 0 1 33 = 4 ^ 32 * 4
    simp only [ccs__ResolveNW, hb, hf]
    rw [show (4294967296 : Nat) = 2 ^ 32 by norm_num, ccs__ReadHeap_two_pow]
    norm_num
  rw [e1, e2]
  norm_num
